import Mathlib

/-!
# Verification of the four-point gradient core

Shallow embedding of the `4point-gradient` repository:

* the fragment shader (the per-sample color evaluator: inverse-distance
  weighting over four anchors with a tunable exponent), embedded over
  exact real arithmetic;
* the `FourPointGradient` class (constructor, `setPoint`, `setBlend`,
  `resize`) and the `GradientControls.applyPreset` preset switcher,
  embedded as explicit state-passing functions.

JS `number` index arguments are modelled as `ℚ` (every JS number is a
rational, and the claims only exercise rational indices); the dynamic
uniform keys `` `u_point${index+1}` `` / `` `u_color${index+1}` `` are
modelled by their numeric part, since JS number-to-string conversion is
injective, so two writes collide exactly when the numeric parts agree.
-/

/-- A GLSL `vec2` over exact reals. -/
def Vec2 : Type := ℝ × ℝ

/-- A GLSL `vec3` over exact reals. -/
def Vec3 : Type := ℝ × ℝ × ℝ

/-- Componentwise division of `vec2`s, as in GLSL `vUV / u_resolution`. -/
noncomputable def vdiv2 (a b : Vec2) : Vec2 := (a.1 / b.1, a.2 / b.2)

/-- Componentwise addition of `vec3`s. -/
noncomputable def vadd3 (a b : Vec3) : Vec3 := (a.1 + b.1, a.2.1 + b.2.1, a.2.2 + b.2.2)

/-- Scalar times `vec3`, as in GLSL `w1 * u_color1`. -/
noncomputable def vscale (t : ℝ) (v : Vec3) : Vec3 := (t * v.1, t * v.2.1, t * v.2.2)

/-- GLSL `distance(p, q)`: Euclidean distance of two `vec2`s. -/
noncomputable def glslDistance (p q : Vec2) : ℝ :=
  Real.sqrt ((p.1 - q.1) ^ 2 + (p.2 - q.2) ^ 2)

/-- GLSL `mix(x, y, a) = x*(1-a) + y*a`. -/
noncomputable def glslMix (x y a : ℝ) : ℝ := x * (1 - a) + y * a

/-- One anchor: a normalized position (`u_pointN`) and an RGB color
(`u_colorN`), both shader uniforms. -/
structure AnchorPoint where
  position : Vec2
  color : Vec3

/-- The shader-visible gradient state: the four `(u_pointN, u_colorN)`
uniform pairs (index `i : Fin 4` stands for uniform number `i+1`),
the `u_blend` uniform and the `u_resolution` uniform. -/
structure GradientState where
  points : Fin 4 → AnchorPoint
  blend : ℝ
  resolution : Vec2

/-- Shader line `float k = mix(0.5, 4.0, u_blend);`: the exponent as a
function of the blend value. -/
noncomputable def kExp (blend : ℝ) : ℝ := glslMix 0.5 4.0 blend

/-- Shader lines 24–36 for anchor `i`: the sample position normalized by
`u_resolution`, its distance to `u_point(i+1)`, floored at `0.0001`
(`dN = max(dN, 0.0001)`). -/
noncomputable def flooredDist (s : GradientState) (vUV : Vec2) (i : Fin 4) : ℝ :=
  max (glslDistance (vdiv2 vUV s.resolution) (s.points i).position) 0.0001

/-- Shader lines 42–45 for anchor `i`: the unnormalized inverse-distance
weight `wN = 1.0 / pow(dN, k)`. -/
noncomputable def rawW (s : GradientState) (vUV : Vec2) (i : Fin 4) : ℝ :=
  1 / flooredDist s vUV i ^ kExp s.blend

/-- Shader line 48: `totalWeight = w1 + w2 + w3 + w4`. -/
noncomputable def totalW (s : GradientState) (vUV : Vec2) : ℝ :=
  rawW s vUV 0 + rawW s vUV 1 + rawW s vUV 2 + rawW s vUV 3

/-- Shader lines 49–52 for anchor `i`: the normalized weight
`wN /= totalWeight`. -/
noncomputable def normW (s : GradientState) (vUV : Vec2) (i : Fin 4) : ℝ :=
  rawW s vUV i / totalW s vUV

/-- Shader `main` (lines 22–60): the output color
`w1*u_color1 + w2*u_color2 + w3*u_color3 + w4*u_color4` with the
normalized weights. -/
noncomputable def fragmentMain (s : GradientState) (vUV : Vec2) : Vec3 :=
  vadd3 (vadd3 (vadd3
    (vscale (normW s vUV 0) (s.points 0).color)
    (vscale (normW s vUV 1) (s.points 1).color))
    (vscale (normW s vUV 2) (s.points 2).color))
    (vscale (normW s vUV 3) (s.points 3).color)

/-- Helper `hexToRGB` of `FourPointGradient.ts`: split a hex color into
normalized RGB channels. JS `>>`/`&` coerce through ToInt32, which is the
identity on the color range `[0, 2^24)` used throughout the repository,
so `ℕ` shifts are a faithful model there. -/
noncomputable def hexToRGB (hex : ℕ) : Vec3 :=
  ((((hex >>> 16) &&& 255 : ℕ) : ℝ) / 255,
   (((hex >>> 8) &&& 255 : ℕ) : ℝ) / 255,
   ((hex &&& 255 : ℕ) : ℝ) / 255)

/-- The gradient of `main.ts` as the shader sees it: anchors
`(0.1,0.1)`/yellow, `(0.9,0.1)`/green, `(0.9,0.9)`/blue,
`(0.1,0.9)`/magenta (colors already pushed through `hexToRGB`), blend
`0.3`, with a unit resolution so sample positions are already
normalized. -/
noncomputable def demoState : GradientState where
  points := ![⟨(0.1, 0.1), (1, 1, 0)⟩, ⟨(0.9, 0.1), (0, 1, 0)⟩,
              ⟨(0.9, 0.9), (0, 0, 1)⟩, ⟨(0.1, 0.9), (1, 0, 1)⟩]
  blend := 0.3
  resolution := (1, 1)

/-- Relabel the four `(position, color)` anchor pairs of a state under a
permutation of the indices, leaving blend and resolution alone. -/
def permuteState (σ : Equiv.Perm (Fin 4)) (s : GradientState) : GradientState :=
  { s with points := fun i => s.points (σ i) }

/-- A `ColorPoint` of `types.ts`: a normalized position and a hex color. -/
structure ColorPoint where
  position : Vec2
  color : ℕ

/-- The `aVertexPosition` quad buffer the constructor and `resize` build:
`[0, 0, width, 0, width, height, 0, height]`. -/
def quadGeometry (width height : ℝ) : List ℝ :=
  [0, 0, width, 0, width, height, 0, height]

/-- The observable state of a `FourPointGradient` mesh: the private
`_gradientWidth`/`_gradientHeight` fields, the `aVertexPosition`
geometry buffer, and the uniform dictionary of the shader. The dynamic
string keys `` `u_point${q}` ``/`` `u_color${q}` `` are keyed here by
their numeric part `q : ℚ` (JS number-to-string is injective, so this
preserves exactly which writes collide); `u_blend` and `u_resolution`
are fixed keys. -/
structure MeshState where
  gradientWidth : ℝ
  gradientHeight : ℝ
  geometry : List ℝ
  pointSlot : ℚ → Option Vec2
  colorSlot : ℚ → Option Vec3
  u_blend : ℝ
  u_resolution : Vec2

/-- The `FourPointGradient` constructor: builds the quad geometry and
the uniform dictionary `u_point1..4`, `u_color1..4` (through
`hexToRGB`), `u_blend` (stored as given, unclamped) and `u_resolution`,
and records the private width/height fields. -/
noncomputable def mkGradient (width height : ℝ) (points : Fin 4 → ColorPoint)
    (blend : ℝ) : MeshState where
  gradientWidth := width
  gradientHeight := height
  geometry := quadGeometry width height
  pointSlot := fun q =>
    if q = 1 then some (points 0).position
    else if q = 2 then some (points 1).position
    else if q = 3 then some (points 2).position
    else if q = 4 then some (points 3).position
    else none
  colorSlot := fun q =>
    if q = 1 then some (hexToRGB (points 0).color)
    else if q = 2 then some (hexToRGB (points 1).color)
    else if q = 3 then some (hexToRGB (points 2).color)
    else if q = 4 then some (hexToRGB (points 3).color)
    else none
  u_blend := blend
  u_resolution := (width, height)

/-- The default points of the constructor: yellow/green/blue/magenta near the
four corners. -/
noncomputable def defaultPoints : Fin 4 → ColorPoint :=
  ![⟨(0.2, 0.2), 0xFFFF00⟩, ⟨(0.8, 0.2), 0x00FF00⟩,
    ⟨(0.8, 0.8), 0x0000FF⟩, ⟨(0.2, 0.8), 0xFF00FF⟩]

/-- A `FourPointGradient` built with every constructor default
(`width = 800`, `height = 600`, the default points, `blend = 0.5`). -/
noncomputable def defaultMesh : MeshState := mkGradient 800 600 defaultPoints 0.5

/-- The message of the error `setPoint` throws. -/
def indexErrorMsg : String := "Point index must be between 0 and 3"

/-- Method `FourPointGradient.setPoint`: rejects `index < 0 || index > 3`
(throwing before any mutation), otherwise writes uniform key
`u_point(index+1)` and, when a color is supplied, `u_color(index+1)`.
The second component is the thrown error, `none` on normal return. -/
noncomputable def setPoint (m : MeshState) (index : ℚ) (position : Vec2)
    (color : Option ℕ) : MeshState × Option String :=
  if index < 0 ∨ index > 3 then (m, some indexErrorMsg)
  else
    let m1 := { m with pointSlot := Function.update m.pointSlot (index + 1) (some position) }
    match color with
    | none => (m1, none)
    | some c =>
        let m2 := { m1 with colorSlot := Function.update m1.colorSlot (index + 1) (some (hexToRGB c)) }
        (m2, none)

/-- Method `FourPointGradient.setBlend`: stores `Math.max(0, Math.min(1, value))`
into `u_blend`; the body contains no throw, hence the error component is
always `none`. -/
noncomputable def setBlend (m : MeshState) (value : ℝ) : MeshState × Option String :=
  ({ m with u_blend := max 0 (min 1 value) }, none)

/-- A sequence of `setBlend` calls applied in order. -/
noncomputable def setBlendRun (m : MeshState) (values : List ℝ) : MeshState :=
  values.foldl (fun acc v => (setBlend acc v).1) m

/-- Method `FourPointGradient.resize`: stores the given width/height into the
private fields, `u_resolution` and the geometry buffer; the body
contains no validation and no throw, hence the error component is
always `none`. -/
noncomputable def resize (m : MeshState) (width height : ℝ) : MeshState × Option String :=
  ({ m with
      gradientWidth := width
      gradientHeight := height
      u_resolution := (width, height)
      geometry := quadGeometry width height }, none)

/-- A preset of `GradientControls`: a name, a point list and a blend. -/
structure Preset where
  name : String
  points : List ColorPoint
  blend : ℝ

/-- The `preset.points.forEach((point, index) => setPoint(index, ...))`
loop of `GradientControls.applyPreset`: sequential `setPoint` calls with
the running index; a thrown error aborts the remaining iterations but
the mutations already performed persist. -/
noncomputable def applyPoints : MeshState → ℕ → List ColorPoint → MeshState × Option String
  | m, _, [] => (m, none)
  | m, i, p :: rest =>
    let r := setPoint m (i : ℚ) p.position (some p.color)
    match r.2 with
    | some e => (r.1, some e)
    | none => applyPoints r.1 (i + 1) rest

/-- The gradient-visible effect of `GradientControls.applyPreset` once a
preset is found: apply each point of the preset through `setPoint`,
then `setBlend(preset.blend)` (reached only when no call threw). DOM
widget updates are external and carry no gradient state. -/
noncomputable def applyPreset (m : MeshState) (preset : Preset) : MeshState × Option String :=
  let r := applyPoints m 0 preset.points
  match r.2 with
  | some e => (r.1, some e)
  | none => setBlend r.1 preset.blend

/-- A preset with only three points, exercising the absence of any
point-count validation in `applyPreset` (first three points of the
`sunset` preset of `main.ts`). -/
noncomputable def threePointPreset : Preset where
  name := "three"
  points := [⟨(0.5, 0.1), 0xFFA500⟩, ⟨(0.9, 0.5), 0xFF6B6B⟩, ⟨(0.5, 0.9), 0x4A0E4E⟩]
  blend := 0.7

/-- The shader-visible `GradientState` a mesh renders with: uniforms
`u_point1..4`/`u_color1..4` paired up, with `u_blend` and
`u_resolution`; `none` when any of the four anchor slots is absent. -/
noncomputable def meshGradientState (m : MeshState) : Option GradientState :=
  match m.pointSlot 1, m.pointSlot 2, m.pointSlot 3, m.pointSlot 4,
        m.colorSlot 1, m.colorSlot 2, m.colorSlot 3, m.colorSlot 4 with
  | some p1, some p2, some p3, some p4, some c1, some c2, some c3, some c4 =>
      some { points := ![⟨p1, c1⟩, ⟨p2, c2⟩, ⟨p3, c3⟩, ⟨p4, c4⟩],
             blend := m.u_blend, resolution := m.u_resolution }
  | _, _, _, _, _, _, _, _ => none

theorem flooredDist_pos (s : GradientState) (vUV : Vec2) (i : Fin 4) :
    0 < flooredDist s vUV i :=
  lt_of_lt_of_le (by norm_num) (le_max_right _ _)

theorem rawW_pos (s : GradientState) (vUV : Vec2) (i : Fin 4) :
    0 < rawW s vUV i :=
  one_div_pos.mpr (Real.rpow_pos_of_pos (flooredDist_pos s vUV i) _)

theorem totalW_pos (s : GradientState) (vUV : Vec2) : 0 < totalW s vUV := by
  have h0 := rawW_pos s vUV 0
  have h1 := rawW_pos s vUV 1
  have h2 := rawW_pos s vUV 2
  have h3 := rawW_pos s vUV 3
  unfold totalW
  linarith

theorem normW_nonneg (s : GradientState) (vUV : Vec2) (i : Fin 4) :
    0 ≤ normW s vUV i :=
  div_nonneg (rawW_pos s vUV i).le (totalW_pos s vUV).le

theorem normW_sum (s : GradientState) (vUV : Vec2) :
    normW s vUV 0 + normW s vUV 1 + normW s vUV 2 + normW s vUV 3 = 1 := by
  unfold normW
  rw [div_add_div_same, div_add_div_same, div_add_div_same, ← totalW]
  exact div_self (totalW_pos s vUV).ne'

/-- C1: for a state satisfying the invariants and any sample position
(anchor-coincident positions included), every floored distance is at
least `1e-4`, every raw inverse-distance weight is strictly positive,
and the four normalized weights sum to exactly `1`. -/
theorem shader_weights_normalized (s : GradientState) (vUV : Vec2)
    (hb0 : 0 ≤ s.blend) (hb1 : s.blend ≤ 1)
    (hrw : 0 < s.resolution.1) (hrh : 0 < s.resolution.2) :
    (∀ i : Fin 4, 0.0001 ≤ flooredDist s vUV i ∧ 0 < rawW s vUV i) ∧
    normW s vUV 0 + normW s vUV 1 + normW s vUV 2 + normW s vUV 3 = 1 :=
  ⟨fun i => ⟨le_max_right _ _, rawW_pos s vUV i⟩, normW_sum s vUV⟩

/-- Witness for C1 at the `main.ts` gradient, sampled exactly at the
position of the first anchor. -/
theorem shader_weights_normalized_witness :
    (0 ≤ demoState.blend ∧ demoState.blend ≤ 1 ∧
      0 < demoState.resolution.1 ∧ 0 < demoState.resolution.2) ∧
    ((∀ i : Fin 4,
        0.0001 ≤ flooredDist demoState (0.1, 0.1) i ∧
        0 < rawW demoState (0.1, 0.1) i) ∧
      normW demoState (0.1, 0.1) 0 + normW demoState (0.1, 0.1) 1 +
        normW demoState (0.1, 0.1) 2 + normW demoState (0.1, 0.1) 3 = 1) :=
  ⟨⟨by norm_num [demoState], by norm_num [demoState],
    by norm_num [demoState], by norm_num [demoState]⟩,
   shader_weights_normalized demoState (0.1, 0.1)
     (by norm_num [demoState]) (by norm_num [demoState])
     (by norm_num [demoState]) (by norm_num [demoState])⟩

theorem fragmentMain_channels (s : GradientState) (vUV : Vec2) :
    fragmentMain s vUV =
      (normW s vUV 0 * (s.points 0).color.1 + normW s vUV 1 * (s.points 1).color.1 +
        normW s vUV 2 * (s.points 2).color.1 + normW s vUV 3 * (s.points 3).color.1,
       normW s vUV 0 * (s.points 0).color.2.1 + normW s vUV 1 * (s.points 1).color.2.1 +
        normW s vUV 2 * (s.points 2).color.2.1 + normW s vUV 3 * (s.points 3).color.2.1,
       normW s vUV 0 * (s.points 0).color.2.2 + normW s vUV 1 * (s.points 1).color.2.2 +
        normW s vUV 2 * (s.points 2).color.2.2 + normW s vUV 3 * (s.points 3).color.2.2) := by
  simp only [fragmentMain, vadd3, vscale]

theorem convex_combo4 {w0 w1 w2 w3 x0 x1 x2 x3 : ℝ}
    (h0 : 0 ≤ w0) (h1 : 0 ≤ w1) (h2 : 0 ≤ w2) (h3 : 0 ≤ w3)
    (hsum : w0 + w1 + w2 + w3 = 1)
    (hx0 : 0 ≤ x0 ∧ x0 ≤ 1) (hx1 : 0 ≤ x1 ∧ x1 ≤ 1)
    (hx2 : 0 ≤ x2 ∧ x2 ≤ 1) (hx3 : 0 ≤ x3 ∧ x3 ≤ 1) :
    0 ≤ w0 * x0 + w1 * x1 + w2 * x2 + w3 * x3 ∧
      w0 * x0 + w1 * x1 + w2 * x2 + w3 * x3 ≤ 1 := by
  constructor
  · have := mul_nonneg h0 hx0.1
    have := mul_nonneg h1 hx1.1
    have := mul_nonneg h2 hx2.1
    have := mul_nonneg h3 hx3.1
    linarith
  · have := mul_le_of_le_one_right h0 hx0.2
    have := mul_le_of_le_one_right h1 hx1.2
    have := mul_le_of_le_one_right h2 hx2.2
    have := mul_le_of_le_one_right h3 hx3.2
    linarith

/-- C2: when every anchor color has all channels in `[0,1]`, every
channel of the evaluated color lies in `[0,1]` (the output is a convex
combination of the four anchor colors). -/
theorem fragmentMain_convex (s : GradientState) (vUV : Vec2)
    (hc : ∀ i : Fin 4,
      (0 ≤ (s.points i).color.1 ∧ (s.points i).color.1 ≤ 1) ∧
      (0 ≤ (s.points i).color.2.1 ∧ (s.points i).color.2.1 ≤ 1) ∧
      (0 ≤ (s.points i).color.2.2 ∧ (s.points i).color.2.2 ≤ 1)) :
    (0 ≤ (fragmentMain s vUV).1 ∧ (fragmentMain s vUV).1 ≤ 1) ∧
    (0 ≤ (fragmentMain s vUV).2.1 ∧ (fragmentMain s vUV).2.1 ≤ 1) ∧
    (0 ≤ (fragmentMain s vUV).2.2 ∧ (fragmentMain s vUV).2.2 ≤ 1) := by
  rw [fragmentMain_channels]
  refine ⟨?_, ?_, ?_⟩
  · exact convex_combo4 (normW_nonneg s vUV 0) (normW_nonneg s vUV 1)
      (normW_nonneg s vUV 2) (normW_nonneg s vUV 3) (normW_sum s vUV)
      (hc 0).1 (hc 1).1 (hc 2).1 (hc 3).1
  · exact convex_combo4 (normW_nonneg s vUV 0) (normW_nonneg s vUV 1)
      (normW_nonneg s vUV 2) (normW_nonneg s vUV 3) (normW_sum s vUV)
      (hc 0).2.1 (hc 1).2.1 (hc 2).2.1 (hc 3).2.1
  · exact convex_combo4 (normW_nonneg s vUV 0) (normW_nonneg s vUV 1)
      (normW_nonneg s vUV 2) (normW_nonneg s vUV 3) (normW_sum s vUV)
      (hc 0).2.2 (hc 1).2.2 (hc 2).2.2 (hc 3).2.2

/-- Witness for C2 at the `main.ts` gradient, sampled at the centroid. -/
theorem fragmentMain_convex_witness :
    (∀ i : Fin 4,
      (0 ≤ (demoState.points i).color.1 ∧ (demoState.points i).color.1 ≤ 1) ∧
      (0 ≤ (demoState.points i).color.2.1 ∧ (demoState.points i).color.2.1 ≤ 1) ∧
      (0 ≤ (demoState.points i).color.2.2 ∧ (demoState.points i).color.2.2 ≤ 1)) ∧
    ((0 ≤ (fragmentMain demoState (0.5, 0.5)).1 ∧ (fragmentMain demoState (0.5, 0.5)).1 ≤ 1) ∧
     (0 ≤ (fragmentMain demoState (0.5, 0.5)).2.1 ∧ (fragmentMain demoState (0.5, 0.5)).2.1 ≤ 1) ∧
     (0 ≤ (fragmentMain demoState (0.5, 0.5)).2.2 ∧ (fragmentMain demoState (0.5, 0.5)).2.2 ≤ 1)) := by
  have hc : ∀ i : Fin 4,
      (0 ≤ (demoState.points i).color.1 ∧ (demoState.points i).color.1 ≤ 1) ∧
      (0 ≤ (demoState.points i).color.2.1 ∧ (demoState.points i).color.2.1 ≤ 1) ∧
      (0 ≤ (demoState.points i).color.2.2 ∧ (demoState.points i).color.2.2 ≤ 1) := by
    intro i
    fin_cases i <;> refine ⟨⟨?_, ?_⟩, ⟨?_, ?_⟩, ⟨?_, ?_⟩⟩ <;> norm_num [demoState]
  exact ⟨hc, fragmentMain_convex demoState (0.5, 0.5) hc⟩

theorem sum4_perm (σ : Equiv.Perm (Fin 4)) (f : Fin 4 → ℝ) :
    f (σ 0) + f (σ 1) + f (σ 2) + f (σ 3) = f 0 + f 1 + f 2 + f 3 := by
  have h := Equiv.sum_comp σ f
  rw [Fin.sum_univ_four, Fin.sum_univ_four] at h
  exact h

theorem totalW_perm (σ : Equiv.Perm (Fin 4)) (s : GradientState) (vUV : Vec2) :
    totalW (permuteState σ s) vUV = totalW s vUV := by
  unfold totalW
  exact sum4_perm σ (fun i => rawW s vUV i)

theorem normW_perm (σ : Equiv.Perm (Fin 4)) (s : GradientState) (vUV : Vec2) (i : Fin 4) :
    normW (permuteState σ s) vUV i = normW s vUV (σ i) := by
  unfold normW
  rw [totalW_perm]
  rfl

/-- C4: relabeling all four anchor pairs under any permutation, with the
sample position unchanged, yields an identical output color. -/
theorem fragmentMain_perm (σ : Equiv.Perm (Fin 4)) (s : GradientState) (vUV : Vec2) :
    fragmentMain (permuteState σ s) vUV = fragmentMain s vUV := by
  have hp : ∀ i, (permuteState σ s).points i = s.points (σ i) := fun i => rfl
  have e1 := sum4_perm σ (fun j => normW s vUV j * (s.points j).color.1)
  have e2 := sum4_perm σ (fun j => normW s vUV j * (s.points j).color.2.1)
  have e3 := sum4_perm σ (fun j => normW s vUV j * (s.points j).color.2.2)
  simp only at e1 e2 e3
  rw [fragmentMain_channels, fragmentMain_channels]
  simp only [hp, normW_perm]
  rw [e1, e2, e3]

/-- C3: the exponent of the evaluator is exactly `mix(0.5, 4.0, blend)`:
`blend = 0` gives `k = 0.5`, `blend = 1` gives `k = 4.0`, the map is
affine (`k = 0.5 + 3.5·blend`), and it is the exponent used by the
weights of the evaluator. -/
theorem kExp_linear_map :
    kExp 0 = 0.5 ∧ kExp 1 = 4.0 ∧ (∀ b : ℝ, kExp b = 0.5 + 3.5 * b) ∧
    (∀ (s : GradientState) (vUV : Vec2) (i : Fin 4),
      rawW s vUV i = 1 / flooredDist s vUV i ^ kExp s.blend) := by
  refine ⟨by norm_num [kExp, glslMix], by norm_num [kExp, glslMix],
    fun b => by norm_num [kExp, glslMix]; ring, fun s vUV i => rfl⟩

theorem meshGradientState_congr (m m' : MeshState)
    (hp : ∀ q : ℚ, q = 1 ∨ q = 2 ∨ q = 3 ∨ q = 4 →
      m'.pointSlot q = m.pointSlot q ∧ m'.colorSlot q = m.colorSlot q)
    (hb : m'.u_blend = m.u_blend) (hres : m'.u_resolution = m.u_resolution) :
    meshGradientState m' = meshGradientState m := by
  have h1 := hp 1 (Or.inl rfl)
  have h2 := hp 2 (Or.inr (Or.inl rfl))
  have h3 := hp 3 (Or.inr (Or.inr (Or.inl rfl)))
  have h4 := hp 4 (Or.inr (Or.inr (Or.inr rfl)))
  unfold meshGradientState
  rw [h1.1, h2.1, h3.1, h4.1, h1.2, h2.2, h3.2, h4.2, hb, hres]

/-- C6: `setPoint` fails exactly when the index lies outside `[0,3]`; on
failure the whole mesh state is returned untouched; on success with the
color omitted, the only change is the position slot `index + 1`. -/
theorem setPoint_index_validation (m : MeshState) (index : ℚ) (position : Vec2)
    (color : Option ℕ) :
    ((setPoint m index position color).2.isSome ↔ index ∉ Set.Icc (0 : ℚ) 3) ∧
    (index ∉ Set.Icc (0 : ℚ) 3 →
      setPoint m index position color = (m, some indexErrorMsg)) ∧
    (index ∈ Set.Icc (0 : ℚ) 3 →
      setPoint m index position none =
        ({ m with pointSlot := Function.update m.pointSlot (index + 1) (some position) },
          none)) := by
  have hIcc : index ∉ Set.Icc (0 : ℚ) 3 ↔ (index < 0 ∨ index > 3) := by
    rw [Set.mem_Icc, not_and_or, not_le, not_le]
  by_cases h : index < 0 ∨ index > 3
  · refine ⟨?_, fun _ => ?_, fun hin => absurd (hIcc.mpr h) (not_not_intro hin)⟩
    · cases color <;> simp [setPoint, h, hIcc] <;>
        exact fun h0 => h.resolve_left (not_lt.mpr h0)
    · cases color <;> simp [setPoint, h]
  · refine ⟨?_, fun hout => absurd (hIcc.mp hout) h, fun _ => ?_⟩
    · cases color <;> simp [setPoint, h, hIcc] <;> (push_neg at h; exact h)
    · simp [setPoint, h]

/-- Witness for C6 at the boundary indices `4` and `-1` from the
boundary-index scenario of the spec, instantiated on the default mesh. -/
theorem setPoint_index_validation_witness :
    ((4 : ℚ) ∉ Set.Icc (0 : ℚ) 3 ∧ (-1 : ℚ) ∉ Set.Icc (0 : ℚ) 3) ∧
    setPoint defaultMesh 4 (0.5, 0.5) none = (defaultMesh, some indexErrorMsg) ∧
    setPoint defaultMesh (-1) (0.5, 0.5) none = (defaultMesh, some indexErrorMsg) := by
  have h4 : (4 : ℚ) ∉ Set.Icc (0 : ℚ) 3 := by
    rw [Set.mem_Icc, not_and_or, not_le, not_le]
    norm_num
  have hm1 : (-1 : ℚ) ∉ Set.Icc (0 : ℚ) 3 := by
    rw [Set.mem_Icc, not_and_or, not_le, not_le]
    norm_num
  exact ⟨⟨h4, hm1⟩,
    (setPoint_index_validation defaultMesh 4 (0.5, 0.5) none).2.1 h4,
    (setPoint_index_validation defaultMesh (-1) (0.5, 0.5) none).2.1 hm1⟩

/-- Counterexample to C5: `resize(0, 600)` raises no error and the
state is modified (the stored width becomes `0`), so non-positive
dimensions are neither rejected nor left without effect. -/
theorem resize_accepts_nonpositive :
    (resize defaultMesh 0 600).2 = none ∧
    (resize defaultMesh 0 600).1.gradientWidth = 0 ∧
    defaultMesh.gradientWidth = 800 := by
  refine ⟨rfl, rfl, rfl⟩

/-- C5 as amended: `resize` performs no dimension validation at all:
even when a dimension is non-positive it succeeds, stores the given
dimensions (and the matching resolution uniform and quad geometry), and
leaves the anchor slots and the blend unchanged. -/
theorem resize_no_validation (m : MeshState) (width height : ℝ)
    (hnp : width ≤ 0 ∨ height ≤ 0) :
    (resize m width height).2 = none ∧
    (resize m width height).1.pointSlot = m.pointSlot ∧
    (resize m width height).1.colorSlot = m.colorSlot ∧
    (resize m width height).1.u_blend = m.u_blend ∧
    (resize m width height).1.gradientWidth = width ∧
    (resize m width height).1.gradientHeight = height ∧
    (resize m width height).1.u_resolution = (width, height) ∧
    (resize m width height).1.geometry = quadGeometry width height :=
  ⟨rfl, rfl, rfl, rfl, rfl, rfl, rfl, rfl⟩

/-- Witness for the amended C5 at `resize(0, 600)` on the default mesh. -/
theorem resize_no_validation_witness :
    ((0 : ℝ) ≤ 0 ∨ (600 : ℝ) ≤ 0) ∧
    ((resize defaultMesh 0 600).2 = none ∧
     (resize defaultMesh 0 600).1.pointSlot = defaultMesh.pointSlot ∧
     (resize defaultMesh 0 600).1.colorSlot = defaultMesh.colorSlot ∧
     (resize defaultMesh 0 600).1.u_blend = defaultMesh.u_blend ∧
     (resize defaultMesh 0 600).1.gradientWidth = 0 ∧
     (resize defaultMesh 0 600).1.gradientHeight = 600 ∧
     (resize defaultMesh 0 600).1.u_resolution = (0, 600) ∧
     (resize defaultMesh 0 600).1.geometry = quadGeometry 0 600) :=
  ⟨Or.inl le_rfl, resize_no_validation defaultMesh 0 600 (Or.inl le_rfl)⟩

/-- C9: for positive dimensions, `resize` raises no error, leaves every
anchor slot, every color slot and the blend unchanged, and changes only
the stored dimensions: the private fields, the `u_resolution` uniform
the evaluator normalizes by, and the quad geometry they determine. -/
theorem resize_independence (m : MeshState) (width height : ℝ)
    (hw : 0 < width) (hh : 0 < height) :
    (resize m width height).2 = none ∧
    (resize m width height).1.pointSlot = m.pointSlot ∧
    (resize m width height).1.colorSlot = m.colorSlot ∧
    (resize m width height).1.u_blend = m.u_blend ∧
    (resize m width height).1.gradientWidth = width ∧
    (resize m width height).1.gradientHeight = height ∧
    (resize m width height).1.u_resolution = (width, height) ∧
    (resize m width height).1.geometry = quadGeometry width height :=
  ⟨rfl, rfl, rfl, rfl, rfl, rfl, rfl, rfl⟩

/-- Witness for C9 at `resize(1024, 768)` on the default mesh. -/
theorem resize_independence_witness :
    ((0 : ℝ) < 1024 ∧ (0 : ℝ) < 768) ∧
    ((resize defaultMesh 1024 768).2 = none ∧
     (resize defaultMesh 1024 768).1.pointSlot = defaultMesh.pointSlot ∧
     (resize defaultMesh 1024 768).1.colorSlot = defaultMesh.colorSlot ∧
     (resize defaultMesh 1024 768).1.u_blend = defaultMesh.u_blend ∧
     (resize defaultMesh 1024 768).1.gradientWidth = 1024 ∧
     (resize defaultMesh 1024 768).1.gradientHeight = 768 ∧
     (resize defaultMesh 1024 768).1.u_resolution = (1024, 768) ∧
     (resize defaultMesh 1024 768).1.geometry = quadGeometry 1024 768) :=
  ⟨⟨by norm_num, by norm_num⟩,
   resize_independence defaultMesh 1024 768 (by norm_num) (by norm_num)⟩

/-- Counterexample to C7: the constructor stores its blend argument
without clamping, so building a gradient with `blend = 5` leaves the
stored blend at `5`, outside `[0,1]`. -/
theorem ctor_blend_unclamped :
    (mkGradient 800 600 defaultPoints 5).u_blend = 5 ∧
    ¬((mkGradient 800 600 defaultPoints 5).u_blend ≤ 1) := by
  have h : (mkGradient 800 600 defaultPoints 5).u_blend = 5 := rfl
  exact ⟨h, by rw [h]; norm_num⟩

theorem setBlend_mem (m : MeshState) (value : ℝ) :
    0 ≤ (setBlend m value).1.u_blend ∧ (setBlend m value).1.u_blend ≤ 1 := by
  refine ⟨le_max_left 0 _, max_le (by norm_num) (min_le_left 1 value)⟩

theorem setBlendRun_mem (values : List ℝ) :
    ∀ m : MeshState, 0 ≤ m.u_blend → m.u_blend ≤ 1 →
      0 ≤ (setBlendRun m values).u_blend ∧ (setBlendRun m values).u_blend ≤ 1 := by
  induction values with
  | nil => exact fun m h0 h1 => ⟨h0, h1⟩
  | cons v rest ih =>
    intro m h0 h1
    have hstep := setBlend_mem m v
    exact ih (setBlend m v).1 hstep.1 hstep.2

/-- C7 as amended: `setBlend` never fails and always stores the clamp of
its argument into `[0,1]`; hence if the stored blend starts in `[0,1]`
(as with the constructor default `0.5` — the constructor itself stores
its argument unclamped), any sequence of `setBlend` calls with
arbitrary values keeps the stored blend in `[0,1]`. -/
theorem setBlend_clamps (m : MeshState) (values : List ℝ)
    (h0 : 0 ≤ m.u_blend) (h1 : m.u_blend ≤ 1) :
    (∀ value : ℝ, (setBlend m value).2 = none ∧
      (setBlend m value).1.u_blend = max 0 (min 1 value) ∧
      0 ≤ (setBlend m value).1.u_blend ∧ (setBlend m value).1.u_blend ≤ 1) ∧
    (0 ≤ (setBlendRun m values).u_blend ∧ (setBlendRun m values).u_blend ≤ 1) :=
  ⟨fun value => ⟨rfl, rfl, setBlend_mem m value⟩, setBlendRun_mem values m h0 h1⟩

/-- Witness for the amended C7: the default mesh (blend `0.5`) after the
out-of-range calls `setBlend 7` and `setBlend (-2)`. -/
theorem setBlend_clamps_witness :
    (0 ≤ defaultMesh.u_blend ∧ defaultMesh.u_blend ≤ 1) ∧
    ((∀ value : ℝ, (setBlend defaultMesh value).2 = none ∧
        (setBlend defaultMesh value).1.u_blend = max 0 (min 1 value) ∧
        0 ≤ (setBlend defaultMesh value).1.u_blend ∧
        (setBlend defaultMesh value).1.u_blend ≤ 1) ∧
      (0 ≤ (setBlendRun defaultMesh [7, -2]).u_blend ∧
        (setBlendRun defaultMesh [7, -2]).u_blend ≤ 1)) := by
  have h0 : 0 ≤ defaultMesh.u_blend := by norm_num [defaultMesh, mkGradient]
  have h1 : defaultMesh.u_blend ≤ 1 := by norm_num [defaultMesh, mkGradient]
  exact ⟨⟨h0, h1⟩, setBlend_clamps defaultMesh [7, -2] h0 h1⟩

/-- C10: a non-integer index strictly between `0` and `3` passes the
range check, so `setPoint` raises no error; yet the write lands on slot
`index + 1`, which is none of the four anchor slots `1..4`, so none of
the uniforms the evaluator reads changes and the rendered field is
untouched. -/
theorem setPoint_fractional_index (m : MeshState) (index : ℚ) (position : Vec2)
    (c : ℕ) (hlt : 0 < index) (hgt : index < 3) (hnint : ∀ n : ℤ, index ≠ (n : ℚ)) :
    (setPoint m index position (some c)).2 = none ∧
    (∀ q : ℚ, q = 1 ∨ q = 2 ∨ q = 3 ∨ q = 4 →
      (setPoint m index position (some c)).1.pointSlot q = m.pointSlot q ∧
      (setPoint m index position (some c)).1.colorSlot q = m.colorSlot q) ∧
    meshGradientState (setPoint m index position (some c)).1 = meshGradientState m := by
  have hguard : ¬(index < 0 ∨ index > 3) := by
    push_neg
    exact ⟨hlt.le, hgt.le⟩
  have hne : ∀ q : ℚ, q = 1 ∨ q = 2 ∨ q = 3 ∨ q = 4 → index + 1 ≠ q := by
    intro q hq heq
    have hidx : index = q - 1 := by linarith
    rcases hq with h | h | h | h <;> subst h
    · exact hnint 0 (by rw [hidx]; norm_num)
    · exact hnint 1 (by rw [hidx]; norm_num)
    · exact hnint 2 (by rw [hidx]; norm_num)
    · exact hnint 3 (by rw [hidx]; norm_num)
  have hr : setPoint m index position (some c) =
      ({ m with
          pointSlot := Function.update m.pointSlot (index + 1) (some position)
          colorSlot := Function.update m.colorSlot (index + 1) (some (hexToRGB c)) },
        none) := by
    rw [setPoint, if_neg hguard]
  have hslots : ∀ q : ℚ, q = 1 ∨ q = 2 ∨ q = 3 ∨ q = 4 →
      (setPoint m index position (some c)).1.pointSlot q = m.pointSlot q ∧
      (setPoint m index position (some c)).1.colorSlot q = m.colorSlot q := by
    intro q hq
    rw [hr]
    constructor <;>
      exact Function.update_noteq (fun h => hne q hq h.symm) _ _
  refine ⟨by rw [hr], hslots, ?_⟩
  refine meshGradientState_congr m (setPoint m index position (some c)).1 hslots ?_ ?_
  · rw [hr]
  · rw [hr]

/-- Witness for C10 at index `3/2` (slot key `2.5`) on the default mesh. -/
theorem setPoint_fractional_index_witness :
    ((0 : ℚ) < 3 / 2 ∧ (3 / 2 : ℚ) < 3 ∧ (∀ n : ℤ, (3 / 2 : ℚ) ≠ (n : ℚ))) ∧
    ((setPoint defaultMesh (3 / 2) (0.5, 0.5) (some 0x123456)).2 = none ∧
      (∀ q : ℚ, q = 1 ∨ q = 2 ∨ q = 3 ∨ q = 4 →
        (setPoint defaultMesh (3 / 2) (0.5, 0.5) (some 0x123456)).1.pointSlot q =
          defaultMesh.pointSlot q ∧
        (setPoint defaultMesh (3 / 2) (0.5, 0.5) (some 0x123456)).1.colorSlot q =
          defaultMesh.colorSlot q) ∧
      meshGradientState (setPoint defaultMesh (3 / 2) (0.5, 0.5) (some 0x123456)).1 =
        meshGradientState defaultMesh) := by
  have hnint : ∀ n : ℤ, (3 / 2 : ℚ) ≠ (n : ℚ) := by
    intro n h
    have h3 : (3 : ℚ) = 2 * (n : ℚ) := by
      field_simp at h
      linarith
    have h4 : (3 : ℤ) = 2 * n := by exact_mod_cast h3
    omega
  exact ⟨⟨by norm_num, by norm_num, hnint⟩,
    setPoint_fractional_index defaultMesh (3 / 2) (0.5, 0.5) 0x123456
      (by norm_num) (by norm_num) hnint⟩

/-- Counterexample to C8: applying a preset with only three points
raises no validation error at all — `applyPreset` simply walks whatever
list it is given, so fewer than four points is silently accepted. -/
theorem applyPreset_accepts_three_points :
    (applyPreset defaultMesh threePointPreset).2 = none ∧
    threePointPreset.points.length ≠ 4 := by
  constructor
  · rfl
  · simp [threePointPreset]

/-- C8 as amended: the core has no atomic `applyConfiguration`; preset
switching applies the points one `setPoint` at a time and then sets the
blend, with no point-count validation. With five points the fifth call
throws the index error only after the first four slots were already
overwritten — a partially-applied state persists and the blend is never
set; with three points the update succeeds, rewriting only three slots
and the blend. -/
theorem applyPreset_no_count_validation (m : MeshState)
    (p1 p2 p3 p4 p5 : ColorPoint) (b : ℝ) :
    ((applyPreset m ⟨"five", [p1, p2, p3, p4, p5], b⟩).2 = some indexErrorMsg ∧
     (applyPreset m ⟨"five", [p1, p2, p3, p4, p5], b⟩).1.pointSlot 4 = some p4.position ∧
     (applyPreset m ⟨"five", [p1, p2, p3, p4, p5], b⟩).1.u_blend = m.u_blend) ∧
    ((applyPreset m ⟨"three", [p1, p2, p3], b⟩).2 = none ∧
     (applyPreset m ⟨"three", [p1, p2, p3], b⟩).1.pointSlot 4 = m.pointSlot 4 ∧
     (applyPreset m ⟨"three", [p1, p2, p3], b⟩).1.u_blend = max 0 (min 1 b)) := by
  norm_num [applyPreset, applyPoints, setPoint, setBlend, Function.update_apply]
